import Mathlib

/-!
Shallow embedding of the rate limiter in `src/services/manbo-service.ts`
(`ManboRateLimiter` and its exported wrappers).  The JavaScript `Map` holding
the per-key entries is modelled as an association list in insertion order,
the wall clock (`Date.now()`) is passed explicitly as a `now : Int` argument,
and mutation of `this.requests` is made explicit by returning the new state.
-/

namespace ManboService

/-- `interface RateLimitEntry { count: number; windowStart: number }`. -/
structure RateLimitEntry where
  count : Int
  windowStart : Int
deriving DecidableEq, Repr

/-- The limiter's `private requests = new Map<string, RateLimitEntry>()`,
modelled as an association list in insertion order. -/
abbrev LimiterState := List (String × RateLimitEntry)

/-- `Map.prototype.get`: the value stored at `k`, if any. -/
def mapGet (m : LimiterState) (k : String) : Option RateLimitEntry :=
  match m with
  | [] => none
  | (k₀, v₀) :: rest => if k₀ = k then some v₀ else mapGet rest k

/-- `Map.prototype.set`: overwrite in place if `k` is present, else append. -/
def mapSet (m : LimiterState) (k : String) (v : RateLimitEntry) : LimiterState :=
  match m with
  | [] => [(k, v)]
  | (k₀, v₀) :: rest => if k₀ = k then (k, v) :: rest else (k₀, v₀) :: mapSet rest k v

/-- `Map.prototype.delete`: remove the entry at `k` if present. -/
def mapDelete (m : LimiterState) (k : String) : LimiterState :=
  match m with
  | [] => []
  | (k₀, v₀) :: rest => if k₀ = k then mapDelete rest k else (k₀, v₀) :: mapDelete rest k

/-- `private windowSize = 60000` (milliseconds). -/
def windowSize : Int := 60000

/-- `ManboRateLimiter.check(key, limit)`.  `Date.now()` is the explicit `now`
argument; the returned pair is (boolean result, state of `this.requests`
after the call). -/
def check (s : LimiterState) (now : Int) (key : String) (limit : Int) :
    Bool × LimiterState :=
  if limit = -1 then (true, s)
  else if limit = 0 then (false, s)
  else
    match mapGet s key with
    | none => (true, mapSet s key ⟨1, now⟩)
    | some entry =>
      if windowSize ≤ now - entry.windowStart then
        (true, mapSet s key ⟨1, now⟩)
      else if limit ≤ entry.count then
        (false, s)
      else
        (true, mapSet s key ⟨entry.count + 1, entry.windowStart⟩)

/-- `ManboRateLimiter.getRemaining(key, limit)`.  The body performs no write
to `this.requests`, so only the number is returned. -/
def getRemaining (s : LimiterState) (now : Int) (key : String) (limit : Int) : Int :=
  if limit = -1 then -1
  else if limit = 0 then 0
  else
    match mapGet s key with
    | none => limit
    | some entry =>
      if windowSize ≤ now - entry.windowStart then limit
      else max 0 (limit - entry.count)

/-- `ManboRateLimiter.reset(key)`. -/
def reset (s : LimiterState) (key : String) : LimiterState :=
  mapDelete s key

/-- `ManboRateLimiter.clear()`. -/
def clear (_ : LimiterState) : LimiterState :=
  []

/-- One call into the shared `rateLimiter` instance, tagged with the
wall-clock time at which the call happens. -/
inductive LimiterOp where
  | opCheck (now : Int) (key : String) (limit : Int)
  | opGetRemaining (now : Int) (key : String) (limit : Int)
  | opReset (key : String)
  | opClear
deriving DecidableEq, Repr

/-- The state of `this.requests` after one call.  `getRemaining` contains no
write to the map, so its case carries the state through unchanged. -/
def runOp (s : LimiterState) (op : LimiterOp) : LimiterState :=
  match op with
  | .opCheck now key limit => (check s now key limit).2
  | .opGetRemaining _ _ _ => s
  | .opReset key => reset s key
  | .opClear => clear s

/-- The state after a sequence of calls. -/
def runOps (s : LimiterState) (ops : List LimiterOp) : LimiterState :=
  ops.foldl runOp s

/-- Every entry currently stored has `count ≥ 1`. -/
def countInvariant (s : LimiterState) : Bool :=
  s.all fun p => 1 ≤ p.2.count

/-- The state after a sequence of `check` calls that all use the same key
`k`; each list element is the (time, limit) pair of one call. -/
def applyChecks (s : LimiterState) (k : String) (calls : List (Int × Int)) :
    LimiterState :=
  calls.foldl (fun st c => (check st c.1 k c.2).2) s

/-- The rate-limit key derivation repeated verbatim in `generateManboVoice`,
`getRateLimitRemaining` and `resetRateLimit`:
the JS conditional on truthiness of the optional number argument, under
which both an absent `groupId` and `groupId === 0` are falsy. -/
def rateLimitKey (groupId : Option Int) : String :=
  match groupId with
  | none => "global"
  | some g => if g = 0 then "global" else "group:" ++ toString g

/-- `getRateLimitRemaining(groupId?)`: reads `config.manboRateLimit ?? -1`
and queries the shared limiter at the derived key. -/
def getRateLimitRemaining (s : LimiterState) (now : Int)
    (manboRateLimit : Option Int) (groupId : Option Int) : Int :=
  getRemaining s now (rateLimitKey groupId) (manboRateLimit.getD (-1))

/-- `resetRateLimit(groupId?)`: deletes the entry at the derived key. -/
def resetRateLimit (s : LimiterState) (groupId : Option Int) : LimiterState :=
  reset s (rateLimitKey groupId)

/-- The rate-limit gate inside `generateManboVoice`: the key it derives from
`groupId` and the `rateLimiter.check` call it makes (with
`config.manboRateLimit ?? -1`) before issuing the HTTP request. -/
def generateManboVoiceGate (s : LimiterState) (now : Int)
    (manboRateLimit : Option Int) (groupId : Option Int) : Bool × LimiterState :=
  check s now (rateLimitKey groupId) (manboRateLimit.getD (-1))

theorem mapGet_mapSet_self (m : LimiterState) (k : String) (v : RateLimitEntry) :
    mapGet (mapSet m k v) k = some v := by
  induction m with
  | nil => simp [mapGet, mapSet]
  | cons hd tl ih =>
    by_cases h : hd.1 = k
    · simp [mapGet, mapSet, h]
    · simpa [mapGet, mapSet, h] using ih

theorem mapGet_mapSet_ne (m : LimiterState) (k k' : String) (v : RateLimitEntry)
    (h : k ≠ k') : mapGet (mapSet m k v) k' = mapGet m k' := by
  induction m with
  | nil => simp [mapGet, mapSet, h]
  | cons hd tl ih =>
    by_cases hh : hd.1 = k
    · simp [mapGet, mapSet, hh, h]
    · simp [mapGet, mapSet, hh, ih]

theorem check_fresh {s : LimiterState} {k : String} {now limit : Int}
    (h : mapGet s k = none) (hl1 : limit ≠ -1) (hl0 : limit ≠ 0) :
    check s now k limit = (true, mapSet s k ⟨1, now⟩) := by
  simp [check, h, hl1, hl0]

theorem check_expired {s : LimiterState} {k : String} {now limit : Int}
    {e : RateLimitEntry} (h : mapGet s k = some e)
    (hw : windowSize ≤ now - e.windowStart) (hl1 : limit ≠ -1) (hl0 : limit ≠ 0) :
    check s now k limit = (true, mapSet s k ⟨1, now⟩) := by
  simp [check, h, hw, hl1, hl0]

theorem check_open_deny {s : LimiterState} {k : String} {now limit : Int}
    {e : RateLimitEntry} (h : mapGet s k = some e)
    (hw : ¬ windowSize ≤ now - e.windowStart) (hc : limit ≤ e.count)
    (hl1 : limit ≠ -1) (hl0 : limit ≠ 0) :
    check s now k limit = (false, s) := by
  simp [check, h, hw, hc, hl1, hl0]

theorem check_open_incr {s : LimiterState} {k : String} {now limit : Int}
    {e : RateLimitEntry} (h : mapGet s k = some e)
    (hw : ¬ windowSize ≤ now - e.windowStart) (hc : ¬ limit ≤ e.count)
    (hl1 : limit ≠ -1) (hl0 : limit ≠ 0) :
    check s now k limit = (true, mapSet s k ⟨e.count + 1, e.windowStart⟩) := by
  simp [check, h, hw, hc, hl1, hl0]

theorem getRemaining_fresh {s : LimiterState} {k : String} {now limit : Int}
    (h : mapGet s k = none) (hl1 : limit ≠ -1) (hl0 : limit ≠ 0) :
    getRemaining s now k limit = limit := by
  simp [getRemaining, h, hl1, hl0]

theorem getRemaining_expired {s : LimiterState} {k : String} {now limit : Int}
    {e : RateLimitEntry} (h : mapGet s k = some e)
    (hw : windowSize ≤ now - e.windowStart) (hl1 : limit ≠ -1) (hl0 : limit ≠ 0) :
    getRemaining s now k limit = limit := by
  simp [getRemaining, h, hw, hl1, hl0]

theorem getRemaining_active {s : LimiterState} {k : String} {now limit : Int}
    {e : RateLimitEntry} (h : mapGet s k = some e)
    (hw : ¬ windowSize ≤ now - e.windowStart) (hl1 : limit ≠ -1) (hl0 : limit ≠ 0) :
    getRemaining s now k limit = max 0 (limit - e.count) := by
  simp [getRemaining, h, hw, hl1, hl0]

theorem countInvariant_mapGet {s : LimiterState} {k : String} {e : RateLimitEntry}
    (hinv : countInvariant s = true) (hget : mapGet s k = some e) : 1 ≤ e.count := by
  induction s with
  | nil => simp [mapGet] at hget
  | cons hd tl ih =>
    simp only [countInvariant, List.all_cons, Bool.and_eq_true] at hinv
    simp only [mapGet] at hget
    by_cases h : hd.1 = k
    · simp only [h, if_pos rfl] at hget
      cases hget
      exact of_decide_eq_true hinv.1
    · exact ih hinv.2 (by simpa [h] using hget)

theorem countInvariant_mapSet {s : LimiterState} (k : String) {v : RateLimitEntry}
    (hinv : countInvariant s = true) (hv : 1 ≤ v.count) :
    countInvariant (mapSet s k v) = true := by
  induction s with
  | nil => simpa [countInvariant, mapSet] using hv
  | cons hd tl ih =>
    obtain ⟨k₀, v₀⟩ := hd
    simp only [countInvariant, List.all_cons, Bool.and_eq_true] at hinv
    by_cases h : k₀ = k
    · simp [mapSet, h, countInvariant, hinv.2, hv]
    · simp only [mapSet, if_neg h, countInvariant, List.all_cons, Bool.and_eq_true]
      exact ⟨hinv.1, ih hinv.2⟩

theorem countInvariant_mapDelete {s : LimiterState} (k : String)
    (hinv : countInvariant s = true) : countInvariant (mapDelete s k) = true := by
  induction s with
  | nil => simp [countInvariant, mapDelete]
  | cons hd tl ih =>
    obtain ⟨k₀, v₀⟩ := hd
    simp only [countInvariant, List.all_cons, Bool.and_eq_true] at hinv
    by_cases h : k₀ = k
    · simpa [mapDelete, h] using ih hinv.2
    · simp only [mapDelete, if_neg h, countInvariant, List.all_cons, Bool.and_eq_true]
      exact ⟨hinv.1, ih hinv.2⟩

theorem countInvariant_check {s : LimiterState} (now : Int) (key : String) (limit : Int)
    (hinv : countInvariant s = true) :
    countInvariant (check s now key limit).2 = true := by
  unfold check
  by_cases h1 : limit = -1
  · simpa [h1] using hinv
  by_cases h0 : limit = 0
  · simpa [h1, h0] using hinv
  simp only [h1, h0, if_neg h1, if_neg h0]
  cases hget : mapGet s key with
  | none => exact countInvariant_mapSet key hinv (by norm_num)
  | some entry =>
    by_cases hw : windowSize ≤ now - entry.windowStart
    · simp only [if_pos hw]
      exact countInvariant_mapSet key hinv (by norm_num)
    · simp only [if_neg hw]
      by_cases hc : limit ≤ entry.count
      · simpa [hc] using hinv
      · simp only [if_neg hc]
        have hcnt := countInvariant_mapGet hinv hget
        refine countInvariant_mapSet key hinv ?_
        show (1 : Int) ≤ entry.count + 1
        omega

theorem countInvariant_runOp {s : LimiterState} (op : LimiterOp)
    (hinv : countInvariant s = true) : countInvariant (runOp s op) = true := by
  cases op with
  | opCheck now key limit => exact countInvariant_check now key limit hinv
  | opGetRemaining now key limit => exact hinv
  | opReset key => exact countInvariant_mapDelete key hinv
  | opClear => rfl

theorem countInvariant_runOps {s : LimiterState} (ops : List LimiterOp)
    (hinv : countInvariant s = true) : countInvariant (runOps s ops) = true := by
  induction ops generalizing s with
  | nil => exact hinv
  | cons op rest ih => exact ih (countInvariant_runOp op hinv)

/-- C1: for a fresh key and `limit = 3`, with all four calls inside one
60-second window, the first three `check` calls answer `true`, the fourth
answers `false`, and `getRemaining` read after calls 1, 2, 3, 4 answers
2, 1, 0, 0 respectively. -/
theorem C1_limit_three_budget (s : LimiterState) (k : String) (t1 t2 t3 t4 : Int)
    (hfresh : mapGet s k = none) (h12 : t1 ≤ t2) (h23 : t2 ≤ t3) (h34 : t3 ≤ t4)
    (hwin : t4 - t1 < 60000) :
    (check s t1 k 3).1 = true ∧
    getRemaining (check s t1 k 3).2 t1 k 3 = 2 ∧
    (check (check s t1 k 3).2 t2 k 3).1 = true ∧
    getRemaining (check (check s t1 k 3).2 t2 k 3).2 t2 k 3 = 1 ∧
    (check (check (check s t1 k 3).2 t2 k 3).2 t3 k 3).1 = true ∧
    getRemaining (check (check (check s t1 k 3).2 t2 k 3).2 t3 k 3).2 t3 k 3 = 0 ∧
    (check (check (check (check s t1 k 3).2 t2 k 3).2 t3 k 3).2 t4 k 3).1 = false ∧
    getRemaining
      (check (check (check (check s t1 k 3).2 t2 k 3).2 t3 k 3).2 t4 k 3).2 t4 k 3
      = 0 := by
  have hl1 : (3 : Int) ≠ -1 := by norm_num
  have hl0 : (3 : Int) ≠ 0 := by norm_num
  have e1 : check s t1 k 3 = (true, mapSet s k ⟨1, t1⟩) := check_fresh hfresh hl1 hl0
  have g1 : mapGet (mapSet s k ⟨1, t1⟩) k = some ⟨1, t1⟩ := mapGet_mapSet_self s k _
  have hw1 : ¬ windowSize ≤ t1 - t1 := by simp [windowSize]
  have hw2 : ¬ windowSize ≤ t2 - t1 := by simp only [windowSize]; omega
  have hw3 : ¬ windowSize ≤ t3 - t1 := by simp only [windowSize]; omega
  have hw4 : ¬ windowSize ≤ t4 - t1 := by simp only [windowSize]; omega
  have q1 : getRemaining (mapSet s k ⟨1, t1⟩) t1 k 3 = 2 := by
    simpa using getRemaining_active g1 hw1 hl1 hl0
  have e2 : check (mapSet s k ⟨1, t1⟩) t2 k 3 =
      (true, mapSet (mapSet s k ⟨1, t1⟩) k ⟨2, t1⟩) := by
    simpa using check_open_incr g1 hw2 (by norm_num) hl1 hl0
  have g2 : mapGet (mapSet (mapSet s k ⟨1, t1⟩) k ⟨2, t1⟩) k = some ⟨2, t1⟩ :=
    mapGet_mapSet_self _ k _
  have q2 : getRemaining (mapSet (mapSet s k ⟨1, t1⟩) k ⟨2, t1⟩) t2 k 3 = 1 := by
    simpa using getRemaining_active g2 hw2 hl1 hl0
  have e3 : check (mapSet (mapSet s k ⟨1, t1⟩) k ⟨2, t1⟩) t3 k 3 =
      (true, mapSet (mapSet (mapSet s k ⟨1, t1⟩) k ⟨2, t1⟩) k ⟨3, t1⟩) := by
    simpa using check_open_incr g2 hw3 (by norm_num) hl1 hl0
  have g3 : mapGet (mapSet (mapSet (mapSet s k ⟨1, t1⟩) k ⟨2, t1⟩) k ⟨3, t1⟩) k =
      some ⟨3, t1⟩ := mapGet_mapSet_self _ k _
  have q3 : getRemaining (mapSet (mapSet (mapSet s k ⟨1, t1⟩) k ⟨2, t1⟩) k ⟨3, t1⟩)
      t3 k 3 = 0 := by
    simpa using getRemaining_active g3 hw3 hl1 hl0
  have e4 : check (mapSet (mapSet (mapSet s k ⟨1, t1⟩) k ⟨2, t1⟩) k ⟨3, t1⟩) t4 k 3 =
      (false, mapSet (mapSet (mapSet s k ⟨1, t1⟩) k ⟨2, t1⟩) k ⟨3, t1⟩) :=
    check_open_deny g3 hw4 (by norm_num) hl1 hl0
  have q4 : getRemaining (mapSet (mapSet (mapSet s k ⟨1, t1⟩) k ⟨2, t1⟩) k ⟨3, t1⟩)
      t4 k 3 = 0 := by
    simpa using getRemaining_active g3 hw4 hl1 hl0
  refine ⟨?_, ?_, ?_, ?_, ?_, ?_, ?_, ?_⟩ <;>
    simp [e1, e2, e3, e4, q1, q2, q3, q4]

/-- C2 as stated is false: with the entry for `"k"` inside an open window and
its budget exhausted (`count = limit = 1`), `check` returns `false` and leaves
the map — in particular the entry for `"k"` — exactly unchanged, although
`limit = 1` is neither `-1` nor `0`. -/
theorem C2_counterexample :
    (1 : Int) ≠ -1 ∧ (1 : Int) ≠ 0 ∧
    check [("k", ⟨1, 0⟩)] 0 "k" 1 = (false, [("k", ⟨1, 0⟩)]) := by
  decide

/-- C2 amended: outside the `-1`/`0` fast paths, a `check` that returns `true`
always mutates or creates the entry for the key, while a `check` that returns
`false` (budget exhausted inside an open window) leaves the state unchanged. -/
theorem C2_mutation_on_true (s : LimiterState) (now : Int) (k : String)
    (limit : Int) (hl1 : limit ≠ -1) (hl0 : limit ≠ 0) :
    ((check s now k limit).1 = true →
      mapGet (check s now k limit).2 k ≠ mapGet s k) ∧
    ((check s now k limit).1 = false → (check s now k limit).2 = s) := by
  cases hget : mapGet s k with
  | none =>
    rw [check_fresh hget hl1 hl0]
    refine ⟨fun _ => ?_, fun hfalse => by simp at hfalse⟩
    show mapGet (mapSet s k ⟨1, now⟩) k ≠ none
    rw [mapGet_mapSet_self]
    simp
  | some e =>
    by_cases hw : windowSize ≤ now - e.windowStart
    · rw [check_expired hget hw hl1 hl0]
      refine ⟨fun _ => ?_, fun hfalse => by simp at hfalse⟩
      show mapGet (mapSet s k ⟨1, now⟩) k ≠ some e
      rw [mapGet_mapSet_self]
      have hne : (⟨1, now⟩ : RateLimitEntry) ≠ e := by
        intro he
        have hws : now = e.windowStart := congrArg RateLimitEntry.windowStart he
        rw [← hws] at hw
        simp only [windowSize] at hw
        omega
      simpa using hne
    · by_cases hc : limit ≤ e.count
      · rw [check_open_deny hget hw hc hl1 hl0]
        exact ⟨fun htrue => by simp at htrue, fun _ => rfl⟩
      · rw [check_open_incr hget hw hc hl1 hl0]
        refine ⟨fun _ => ?_, fun hfalse => by simp at hfalse⟩
        show mapGet (mapSet s k ⟨e.count + 1, e.windowStart⟩) k ≠ some e
        rw [mapGet_mapSet_self]
        have hne : (⟨e.count + 1, e.windowStart⟩ : RateLimitEntry) ≠ e := by
          intro he
          have hcount : e.count + 1 = e.count := congrArg RateLimitEntry.count he
          omega
        simpa using hne

theorem C2_mutation_on_true_witness :
    ((check ([] : LimiterState) 0 "k" 2).1 = true →
      mapGet (check ([] : LimiterState) 0 "k" 2).2 "k" ≠ mapGet [] "k") ∧
    ((check ([] : LimiterState) 0 "k" 2).1 = false →
      (check ([] : LimiterState) 0 "k" 2).2 = []) :=
  C2_mutation_on_true [] 0 "k" 2 (by decide) (by decide)

/-- C3: with `limit > 0`, a `check` on a fresh key or on an expired window
accepts and replaces the entry with `count = 1`, `windowStart = now`; in
particular, after two accepted checks with `limit = 2`, once ≥ 60000 ms have
elapsed since the window opened, `check` accepts again and `getRemaining`
then reads 1. -/
theorem C3_window_reset :
    (∀ (s : LimiterState) (now : Int) (k : String) (limit : Int), 0 < limit →
      (mapGet s k = none ∨
        ∃ e, mapGet s k = some e ∧ windowSize ≤ now - e.windowStart) →
      check s now k limit = (true, mapSet s k ⟨1, now⟩)) ∧
    (∀ (s : LimiterState) (k : String) (t1 t2 t3 : Int), mapGet s k = none →
      t2 - t1 < 60000 → 60000 ≤ t3 - t1 →
      (check s t1 k 2).1 = true ∧
      (check (check s t1 k 2).2 t2 k 2).1 = true ∧
      (check (check (check s t1 k 2).2 t2 k 2).2 t3 k 2).1 = true ∧
      getRemaining (check (check (check s t1 k 2).2 t2 k 2).2 t3 k 2).2 t3 k 2
        = 1) := by
  constructor
  · intro s now k limit hlim hcase
    have hl1 : limit ≠ -1 := by omega
    have hl0 : limit ≠ 0 := by omega
    rcases hcase with hnone | ⟨e, hget, hw⟩
    · exact check_fresh hnone hl1 hl0
    · exact check_expired hget hw hl1 hl0
  · intro s k t1 t2 t3 hfresh h21 h31
    have hl1 : (2 : Int) ≠ -1 := by norm_num
    have hl0 : (2 : Int) ≠ 0 := by norm_num
    have e1 : check s t1 k 2 = (true, mapSet s k ⟨1, t1⟩) :=
      check_fresh hfresh hl1 hl0
    have g1 : mapGet (mapSet s k ⟨1, t1⟩) k = some ⟨1, t1⟩ :=
      mapGet_mapSet_self s k _
    have hw2 : ¬ windowSize ≤ t2 - t1 := by simp only [windowSize]; omega
    have e2 : check (mapSet s k ⟨1, t1⟩) t2 k 2 =
        (true, mapSet (mapSet s k ⟨1, t1⟩) k ⟨2, t1⟩) := by
      simpa using check_open_incr g1 hw2 (by norm_num) hl1 hl0
    have g2 : mapGet (mapSet (mapSet s k ⟨1, t1⟩) k ⟨2, t1⟩) k = some ⟨2, t1⟩ :=
      mapGet_mapSet_self _ k _
    have hw3 : windowSize ≤ t3 - t1 := by simp only [windowSize]; omega
    have e3 : check (mapSet (mapSet s k ⟨1, t1⟩) k ⟨2, t1⟩) t3 k 2 =
        (true, mapSet (mapSet (mapSet s k ⟨1, t1⟩) k ⟨2, t1⟩) k ⟨1, t3⟩) :=
      check_expired g2 hw3 hl1 hl0
    have g3 : mapGet (mapSet (mapSet (mapSet s k ⟨1, t1⟩) k ⟨2, t1⟩) k ⟨1, t3⟩) k
        = some ⟨1, t3⟩ := mapGet_mapSet_self _ k _
    have hw0 : ¬ windowSize ≤ t3 - t3 := by simp [windowSize]
    have q3 : getRemaining
        (mapSet (mapSet (mapSet s k ⟨1, t1⟩) k ⟨2, t1⟩) k ⟨1, t3⟩) t3 k 2 = 1 := by
      simpa using getRemaining_active g3 hw0 hl1 hl0
    refine ⟨?_, ?_, ?_, ?_⟩ <;> simp [e1, e2, e3, q3]

theorem C3_window_reset_witness :
    check ([] : LimiterState) 5 "k" 2 = (true, mapSet [] "k" ⟨1, 5⟩) ∧
    ((check ([] : LimiterState) 0 "k" 2).1 = true ∧
      (check (check ([] : LimiterState) 0 "k" 2).2 1 "k" 2).1 = true ∧
      (check (check (check ([] : LimiterState) 0 "k" 2).2 1 "k" 2).2 60000 "k" 2).1
        = true ∧
      getRemaining
        (check (check (check ([] : LimiterState) 0 "k" 2).2 1 "k" 2).2 60000 "k" 2).2
        60000 "k" 2 = 1) :=
  ⟨C3_window_reset.1 [] 5 "k" 2 (by decide) (Or.inl rfl),
   C3_window_reset.2 [] "k" 0 1 60000 rfl (by decide) (by decide)⟩

/-- C4: `getRemaining` performs no write, so any number of `getRemaining`
calls leaves the state exactly as it was, and a subsequent `check` behaves
identically to omitting them. -/
theorem C4_getRemaining_readonly (s : LimiterState) (qs : List (Int × String × Int))
    (now : Int) (k : String) (limit : Int) :
    runOps s (qs.map fun q => LimiterOp.opGetRemaining q.1 q.2.1 q.2.2) = s ∧
    check (runOps s (qs.map fun q => LimiterOp.opGetRemaining q.1 q.2.1 q.2.2))
      now k limit = check s now k limit := by
  have hstate :
      runOps s (qs.map fun q => LimiterOp.opGetRemaining q.1 q.2.1 q.2.2) = s := by
    induction qs with
    | nil => rfl
    | cons q rest ih => exact ih
  exact ⟨hstate, by rw [hstate]⟩

/-- C5: with `limit = -1`, `check` always answers `true` and leaves the whole
map — in particular the entry for `k` — untouched, and `getRemaining` answers
`-1` in every state, hence both before and after any such calls. -/
theorem C5_unlimited (s : LimiterState) (now : Int) (k : String) :
    check s now k (-1) = (true, s) ∧ getRemaining s now k (-1) = -1 := by
  constructor <;> simp [check, getRemaining]

/-- C6: with `limit = 0`, `check` always answers `false` and leaves the whole
map untouched, and `getRemaining` answers `0` in every state. -/
theorem C6_disabled (s : LimiterState) (now : Int) (k : String) :
    check s now k 0 = (false, s) ∧ getRemaining s now k 0 = 0 := by
  constructor <;> simp [check, getRemaining]

/-- C7: every state reachable from the empty map by any sequence of `check`,
`getRemaining`, `reset` and `clear` calls (any keys, limits and times) stores
only entries with `count ≥ 1`. -/
theorem C7_count_invariant (ops : List LimiterOp) :
    countInvariant (runOps [] ops) = true :=
  countInvariant_runOps ops rfl

theorem mapGet_check_other (s : LimiterState) (now : Int) (k1 : String)
    (limit : Int) (k2 : String) (hne : k1 ≠ k2) :
    mapGet (check s now k1 limit).2 k2 = mapGet s k2 := by
  by_cases hl1 : limit = -1
  · simp [check, hl1]
  by_cases hl0 : limit = 0
  · simp [check, hl1, hl0]
  cases hget : mapGet s k1 with
  | none =>
    rw [check_fresh hget hl1 hl0]
    exact mapGet_mapSet_ne s k1 k2 _ hne
  | some e =>
    by_cases hw : windowSize ≤ now - e.windowStart
    · rw [check_expired hget hw hl1 hl0]
      exact mapGet_mapSet_ne s k1 k2 _ hne
    · by_cases hc : limit ≤ e.count
      · rw [check_open_deny hget hw hc hl1 hl0]
      · rw [check_open_incr hget hw hc hl1 hl0]
        exact mapGet_mapSet_ne s k1 k2 _ hne

theorem check_result_congr (s s' : LimiterState) (now : Int) (k : String)
    (limit : Int) (h : mapGet s k = mapGet s' k) :
    (check s now k limit).1 = (check s' now k limit).1 ∧
    getRemaining s now k limit = getRemaining s' now k limit := by
  by_cases hl1 : limit = -1
  · subst hl1; constructor <;> simp [check, getRemaining]
  by_cases hl0 : limit = 0
  · subst hl0; constructor <;> simp [check, getRemaining]
  cases hget : mapGet s' k with
  | none =>
    have hs : mapGet s k = none := by rw [h, hget]
    rw [check_fresh hs hl1 hl0, check_fresh hget hl1 hl0,
      getRemaining_fresh hs hl1 hl0, getRemaining_fresh hget hl1 hl0]
    exact ⟨rfl, rfl⟩
  | some e =>
    have hs : mapGet s k = some e := by rw [h, hget]
    by_cases hw : windowSize ≤ now - e.windowStart
    · rw [check_expired hs hw hl1 hl0, check_expired hget hw hl1 hl0,
        getRemaining_expired hs hw hl1 hl0, getRemaining_expired hget hw hl1 hl0]
      exact ⟨rfl, rfl⟩
    · by_cases hc : limit ≤ e.count
      · rw [check_open_deny hs hw hc hl1 hl0, check_open_deny hget hw hc hl1 hl0,
          getRemaining_active hs hw hl1 hl0, getRemaining_active hget hw hl1 hl0]
        exact ⟨rfl, rfl⟩
      · rw [check_open_incr hs hw hc hl1 hl0, check_open_incr hget hw hc hl1 hl0,
          getRemaining_active hs hw hl1 hl0, getRemaining_active hget hw hl1 hl0]
        exact ⟨rfl, rfl⟩

theorem mapGet_applyChecks_other (s : LimiterState) (k1 : String)
    (calls : List (Int × Int)) (k2 : String) (hne : k1 ≠ k2) :
    mapGet (applyChecks s k1 calls) k2 = mapGet s k2 := by
  induction calls generalizing s with
  | nil => rfl
  | cons c rest ih =>
    have h1 : applyChecks s k1 (c :: rest)
        = applyChecks (check s c.1 k1 c.2).2 k1 rest := rfl
    rw [h1, ih ((check s c.1 k1 c.2).2)]
    exact mapGet_check_other s c.1 k1 c.2 k2 hne

/-- C8: any sequence of `check` calls on key `k1` leaves the entry for a
different key `k2` byte-for-byte unchanged, so a subsequent `check` verdict
and `getRemaining` for `k2` are the same as if the `k1` calls had not
happened. -/
theorem C8_key_independence (k1 k2 : String) (hne : k1 ≠ k2) (s : LimiterState)
    (calls : List (Int × Int)) (now : Int) (limit : Int) :
    mapGet (applyChecks s k1 calls) k2 = mapGet s k2 ∧
    (check (applyChecks s k1 calls) now k2 limit).1 = (check s now k2 limit).1 ∧
    getRemaining (applyChecks s k1 calls) now k2 limit
      = getRemaining s now k2 limit := by
  have hm := mapGet_applyChecks_other s k1 calls k2 hne
  have hc := check_result_congr (applyChecks s k1 calls) s now k2 limit hm
  exact ⟨hm, hc.1, hc.2⟩

theorem C8_key_independence_witness :
    mapGet (applyChecks ([] : LimiterState) "a" [(0, 1)]) "b" = mapGet [] "b" ∧
    (check (applyChecks ([] : LimiterState) "a" [(0, 1)]) 0 "b" 3).1
      = (check ([] : LimiterState) 0 "b" 3).1 ∧
    getRemaining (applyChecks ([] : LimiterState) "a" [(0, 1)]) 0 "b" 3
      = getRemaining ([] : LimiterState) 0 "b" 3 :=
  C8_key_independence "a" "b" (by decide) [] [(0, 1)] 0 3

/-- C9: a `limit < -1` skips both fast paths and then acts like `limit = 1`:
the first call in a window installs `count = 1` and accepts, and any later
call in the same open window (the stored count being ≥ 1) is denied with the
state untouched; `getRemaining` reports the negative `limit` itself when no
entry exists or the entry is expired, and 0 while the entry is active. -/
theorem C9_negative_limit (s : LimiterState) (now : Int) (k : String)
    (limit : Int) (hneg : limit < -1) :
    ((mapGet s k = none ∨
        ∃ e, mapGet s k = some e ∧ windowSize ≤ now - e.windowStart) →
      check s now k limit = (true, mapSet s k ⟨1, now⟩)) ∧
    (∀ e, mapGet s k = some e → 1 ≤ e.count → now - e.windowStart < windowSize →
      check s now k limit = (false, s)) ∧
    ((mapGet s k = none ∨
        ∃ e, mapGet s k = some e ∧ windowSize ≤ now - e.windowStart) →
      getRemaining s now k limit = limit) ∧
    (∀ e, mapGet s k = some e → 1 ≤ e.count → now - e.windowStart < windowSize →
      getRemaining s now k limit = 0) := by
  have hl1 : limit ≠ -1 := by omega
  have hl0 : limit ≠ 0 := by omega
  refine ⟨?_, ?_, ?_, ?_⟩
  · rintro (hnone | ⟨e, hget, hw⟩)
    · exact check_fresh hnone hl1 hl0
    · exact check_expired hget hw hl1 hl0
  · intro e hget hcnt hw
    exact check_open_deny hget (by omega) (by omega) hl1 hl0
  · rintro (hnone | ⟨e, hget, hw⟩)
    · exact getRemaining_fresh hnone hl1 hl0
    · exact getRemaining_expired hget hw hl1 hl0
  · intro e hget hcnt hw
    rw [getRemaining_active hget (by omega) hl1 hl0]
    exact max_eq_left (by omega)

theorem C9_negative_limit_witness :
    check [("k", (⟨1, 0⟩ : RateLimitEntry))] 50 "k" (-2)
      = (false, [("k", ⟨1, 0⟩)]) ∧
    getRemaining [("k", (⟨1, 0⟩ : RateLimitEntry))] 50 "k" (-2) = 0 ∧
    check ([] : LimiterState) 0 "k" (-2) = (true, mapSet [] "k" ⟨1, 0⟩) ∧
    getRemaining ([] : LimiterState) 0 "k" (-2) = -2 :=
  ⟨(C9_negative_limit [("k", ⟨1, 0⟩)] 50 "k" (-2) (by decide)).2.1
      ⟨1, 0⟩ (by decide) (by decide) (by decide),
   (C9_negative_limit [("k", ⟨1, 0⟩)] 50 "k" (-2) (by decide)).2.2.2
      ⟨1, 0⟩ (by decide) (by decide) (by decide),
   (C9_negative_limit [] 0 "k" (-2) (by decide)).1 (Or.inl rfl),
   (C9_negative_limit [] 0 "k" (-2) (by decide)).2.2.1 (Or.inl rfl)⟩

/-- C10: the wrappers derive the key by JavaScript truthiness, not by mere
presence of a group context: `getRateLimitRemaining`, `resetRateLimit` and
the gate of `generateManboVoice` all send `groupId = 0` — exactly like an
absent `groupId` — to the `"global"` key, and use `"group:<groupId>"` only
for nonzero values. -/
theorem C10_truthiness_key (g : Int) (hg : g ≠ 0) (s : LimiterState) (now : Int)
    (lim : Option Int) :
    rateLimitKey none = "global" ∧
    rateLimitKey (some 0) = "global" ∧
    rateLimitKey (some g) = "group:" ++ toString g ∧
    getRateLimitRemaining s now lim none
      = getRemaining s now "global" (lim.getD (-1)) ∧
    getRateLimitRemaining s now lim (some 0)
      = getRemaining s now "global" (lim.getD (-1)) ∧
    getRateLimitRemaining s now lim (some g)
      = getRemaining s now ("group:" ++ toString g) (lim.getD (-1)) ∧
    resetRateLimit s none = reset s "global" ∧
    resetRateLimit s (some 0) = reset s "global" ∧
    resetRateLimit s (some g) = reset s ("group:" ++ toString g) ∧
    generateManboVoiceGate s now lim none
      = check s now "global" (lim.getD (-1)) ∧
    generateManboVoiceGate s now lim (some 0)
      = check s now "global" (lim.getD (-1)) ∧
    generateManboVoiceGate s now lim (some g)
      = check s now ("group:" ++ toString g) (lim.getD (-1)) := by
  simp [rateLimitKey, getRateLimitRemaining, resetRateLimit,
    generateManboVoiceGate, hg]

theorem C10_truthiness_key_witness :
    rateLimitKey (some 1) = "group:" ++ toString (1 : Int) :=
  (C10_truthiness_key 1 (by decide) [] 0 none).2.2.1

theorem C1_limit_three_budget_witness :
    (check ([] : LimiterState) 0 "k" 3).1 = true ∧
    getRemaining (check ([] : LimiterState) 0 "k" 3).2 0 "k" 3 = 2 :=
  ⟨(C1_limit_three_budget [] "k" 0 0 0 0 rfl (by decide) (by decide) (by decide)
      (by decide)).1,
   (C1_limit_three_budget [] "k" 0 0 0 0 rfl (by decide) (by decide) (by decide)
      (by decide)).2.1⟩

end ManboService
